import Mathlib

/-!
# Verification of the zra-helper task orchestration core

A shallow embedding of the task/progress aggregation and orchestration core of
the `zra-helper` browser extension, together with proofs of the testable
properties stated in its specification.

Embedded components and their sources:
* the task store (`src/store/modules/tasks.ts`): task records, the derived
  `complete` / `progress` / `progressMax` getters, and the actions
  `markAsComplete`, `setError`, `addStep`, `setStateBasedOnChildren`;
* the tab admission controller (`TabCreator` in `src/backend/utils`):
  `slotFree`, `drainQueue`, `waitForFreeTabSlot`;
* the login operations (`src/backend/client_actions/user.ts`): `login` and
  `robustLogin`;
* the paged receipt-data merge (`getReceiptData` in
  `src/backend/client_actions/receipts`).

The `taskFunction` runner, the `parallelTaskMap` mapper and the `getPagedData`
fetcher live in `backend/client_actions/utils`, whose source is not in the
repository snapshot (only callers and the spec describe them); they are
modelled from the spec and marked as such in their doc comments.
-/

/-! ## Task states and errors -/

/-- `TaskState` from `src/store/modules/tasks.ts` (lines 10-14): the explicit
states a task can be resolved to. A task's stored `state` field starts out
unset (`null` in the source), modelled as `Option TaskState` with `none`. -/
inductive TaskState where
  | error
  | success
  | warning
deriving DecidableEq, Repr

/-- Typed errors of the extension (`src/backend/errors`, here reduced to the
shape the orchestration core inspects): the `type` tag (e.g. `"LoginError"`),
the optional `code` (e.g. `"WrongClient"`), and a message. The retry loop in
`robustLogin` tests `error.type === 'LoginError' && error.code === 'WrongClient'`. -/
structure Err where
  type : String
  code : Option String
  message : String
deriving DecidableEq, Repr

/-- Modelled from the spec: the human-readable rendering of an error
(`errorToString` in `backend/errors`, not under `src/`); the store's `setError`
mutation stores `errorToString(value)` in the task's `errorString` field. Only
the fact that `errorString` is the rendering of the recorded error matters to
the claims, not the concrete format. -/
def errorToString (e : Err) : String :=
  e.type ++ ": " ++ e.message

/-! ## Task records and the task hierarchy

`src/store/modules/tasks.ts` keeps tasks in an id-indexed map and stores child
ids in each task's `children` array; `create` only ever appends a fresh id to
its parent, so the reachable stores form forests. We embed one task together
with its descendants as a tree, which is exactly the shape the recursive
getters (`complete`, `progress`, `progressMax`) traverse. -/

/-- The stored (directly mutated) fields of a task record that the
orchestration core reads or writes; defaults are those of the `create` action
(`src/store/modules/tasks.ts` lines 318-339). -/
structure TaskFields where
  status : String := ""
  state : Option TaskState := none
  progress : Rat := 0
  progressMax : Rat := 1
  complete : Bool := false
  unknownMaxProgress : Bool := true
  sequential : Bool := true
  autoUpdateParent : Bool := true
  error : Option Err := none
  errorString : String := ""
deriving DecidableEq, Repr

/-- A task record with its descendants; `children` is in creation order, as in
the store (ids are appended by `addChildren` when a child is created). -/
inductive TaskTree where
  | mk (fields : TaskFields) (children : List TaskTree)

/-- The stored fields of the root task of the tree. -/
def TaskTree.fields : TaskTree → TaskFields
  | .mk f _ => f

/-- The child subtrees of the root task of the tree. -/
def TaskTree.children : TaskTree → List TaskTree
  | .mk _ cs => cs

/-- Apply a store mutation to the root task's stored fields, leaving every
descendant untouched (mutations in the store are per-task). -/
def setRoot (g : TaskFields → TaskFields) : TaskTree → TaskTree
  | .mk f cs => .mk (g f) cs

/-! ## Derived getters

The getters `complete`, `progress` and `progressMax`
(`src/store/modules/tasks.ts` lines 81-114 and 172-208) recompute a task's
derived values from its children on every read. `getChildProgress` walks the
`children` array once, looking only at auto-updating children; under
`unknownMaxProgress` it either sums child values (`sequential === false`) or
takes the first not-yet-complete child's value and stops (`sequential ===
true`, the `break` in the source). -/

/-- Which derived quantity `getChildProgress` is computing (its `type`
parameter: `'progress' | 'progressMax'`). -/
inductive ProgType where
  | progress
  | progressMax
deriving DecidableEq, BEq, Repr

/-- The view of one child that the parent's getters consume: its stored
`autoUpdateParent` flag and its own *derived* `complete`, `progress` and
`progressMax` (the getters recurse via `getters[type](childId)` and
`getters.complete(childTask.id)`). -/
structure ChildView where
  auto : Bool
  complete : Bool
  progress : Rat
  progressMax : Rat
deriving DecidableEq, Repr

/-- `getters[type](childId)` inside the `getChildProgress` loop. -/
def childValue : ProgType → ChildView → Rat
  | .progress, v => v.progress
  | .progressMax, v => v.progressMax

/-- The loop of the `complete` getter (`tasks.ts` lines 172-190): walk the
children; any auto-updating incomplete child makes the parent incomplete
(`break`); if there was at least one auto-updating child the derived value is
returned (`some`), otherwise the getter falls back to the stored field
(`none`). -/
def completeFromChildren : List ChildView → Option Bool
  | [] => none
  | v :: rest =>
    if v.auto then
      if !v.complete then some false
      else some ((completeFromChildren rest).getD true)
    else completeFromChildren rest

/-- The loop body of `getChildProgress` (`tasks.ts` lines 88-108), with the
running total `acc` and the `hasAutoUpdateChildren` flag threaded through.
Under `unknownMaxProgress`: non-sequential tasks sum child values; sequential
tasks take the first not-yet-complete auto-updating child's value and stop.
With a known maximum, `progress` sums the children's completion fractions. -/
def childProgressLoop (ty : ProgType) (unknownMax seq : Bool) :
    Rat → Bool → List ChildView → Rat × Bool
  | acc, hasAuto, [] => (acc, hasAuto)
  | acc, hasAuto, v :: rest =>
    if v.auto then
      let cp := childValue ty v
      if unknownMax then
        if !seq then childProgressLoop ty unknownMax seq (acc + cp) true rest
        else if !v.complete then (cp, true)
        else childProgressLoop ty unknownMax seq acc true rest
      else
        if ty == ProgType.progress then
          childProgressLoop ty unknownMax seq (acc + cp / v.progressMax) true rest
        else childProgressLoop ty unknownMax seq acc true rest
    else childProgressLoop ty unknownMax seq acc hasAuto rest

/-- `getChildProgress` (`tasks.ts` lines 81-114): computes a derived progress
value from the children, or `none` when the loop was skipped (task already
complete, or `progressMax` requested without `unknownMaxProgress`) or there
were no auto-updating children; `none` makes the getter fall back to the
task's stored field. -/
def getChildProgress (ty : ProgType) (unknownMax seq parentComplete : Bool)
    (views : List ChildView) : Option Rat :=
  if !parentComplete && (ty == ProgType.progress || unknownMax) then
    match childProgressLoop ty unknownMax seq 0 false views with
    | (result, hasAuto) => if hasAuto then some result else none
  else none

/-- The derived values of one task, as computed by the store getters. -/
structure Derived where
  complete : Bool
  progress : Rat
  progressMax : Rat
deriving DecidableEq, Repr

/-- The `ChildView` a parent getter sees for a child with derived values `d`. -/
def viewOf (c : TaskTree) (d : Derived) : ChildView :=
  ⟨c.fields.autoUpdateParent, d.complete, d.progress, d.progressMax⟩

mutual

/-- The derived getters of one task (`tasks.ts` lines 172-208), computed on
demand from the current child state:
* `complete`: with children, derived from auto-updating children, otherwise
  the stored field;
* `progress`: with children, `getChildProgress('progress')`, falling back to
  the stored field;
* `progressMax`: with children and `unknownMaxProgress`,
  `getChildProgress('progressMax')`, falling back to the stored field. -/
def derived : TaskTree → Derived
  | .mk f cs =>
    let views := derivedViews cs
    let dComplete :=
      if cs.length > 0 then (completeFromChildren views).getD f.complete
      else f.complete
    let dProgress :=
      if cs.length > 0 then
        (getChildProgress ProgType.progress f.unknownMaxProgress f.sequential
          dComplete views).getD f.progress
      else f.progress
    let dMax :=
      if cs.length > 0 && f.unknownMaxProgress then
        (getChildProgress ProgType.progressMax f.unknownMaxProgress f.sequential
          dComplete views).getD f.progressMax
      else f.progressMax
    ⟨dComplete, dProgress, dMax⟩
termination_by t => sizeOf t

/-- The views of a list of children, in order. -/
def derivedViews : List TaskTree → List ChildView
  | [] => []
  | c :: rest => viewOf c (derived c) :: derivedViews rest
termination_by cs => sizeOf cs

end

/-! ## Store actions

The actions of `src/store/modules/tasks.ts` that the claims exercise.  Each is
a sequence of commits on one task's stored fields; commits never touch other
tasks. -/

/-- `markAsComplete` (`tasks.ts` lines 373-377): commit `setComplete true`,
then commit `setProgress` with the *derived* `progressMax` of the state after
the first commit (`getters.progressMax(id)` is re-evaluated at that point),
then commit `setStatus ''`. -/
def markAsComplete (t : TaskTree) : TaskTree :=
  let t1 := setRoot (fun f => { f with complete := true }) t
  let t2 := setRoot (fun f => { f with progress := (derived t1).progressMax }) t1
  setRoot (fun f => { f with status := "" }) t2

/-- The `setError` action (`tasks.ts` lines 386-394): commit the `setError`
mutation (store the error object and `errorToString` of it), then commit
`setState` with `TaskState.ERROR`. (The debug-only console logging is an
external collaborator and is not modelled.) -/
def setErrorAction (e : Err) (t : TaskTree) : TaskTree :=
  setRoot (fun f =>
    { f with error := some e, errorString := errorToString e,
             state := some TaskState.error }) t

/-- `addStep` (`tasks.ts` lines 442-445): commit `setProgress` with the
*derived* progress plus the increment, then commit `setStatus`. -/
def addStep (stat : String) (increment : Rat) (t : TaskTree) : TaskTree :=
  let t1 := setRoot (fun f => { f with progress := (derived t).progress + increment }) t
  setRoot (fun f => { f with status := stat }) t1

/-- The count the `childStateCounts` getter (`tasks.ts` lines 153-162) holds
for one state: the number of children whose stored `state` equals it.  The
getter reads the children's raw task objects, so the *stored* `state` fields
are counted (there is no derived state getter). -/
def childStateCount (st : TaskState) (cs : List TaskTree) : Nat :=
  cs.countP (fun c => c.fields.state == some st)

/-- The entry of the `childStateCounts` object for one state: in the source
the object only has keys for states that occur among the children, so a state
with no occurrences reads as `undefined` (here `none`), which compares unequal
to any number and is not `> 0`. -/
def childStateCountEntry (st : TaskState) (cs : List TaskTree) : Option Nat :=
  let n := childStateCount st cs
  if n = 0 then none else some n

/-- `setStateBasedOnChildren` (`tasks.ts` lines 455-467): if the `ERROR` entry
of `childStateCounts` equals the number of children, set the state to ERROR;
else if the `ERROR` or `WARNING` entry is `> 0`, WARNING; else SUCCESS.  Note
that `children.length` counts *all* children, not only auto-updating ones. -/
def setStateBasedOnChildren (t : TaskTree) : TaskTree :=
  let errEntry := childStateCountEntry TaskState.error t.children
  let warnEntry := childStateCountEntry TaskState.warning t.children
  let st :=
    if errEntry == some t.children.length then TaskState.error
    else if errEntry.getD 0 > 0 || warnEntry.getD 0 > 0 then TaskState.warning
    else TaskState.success
  setRoot (fun f => { f with state := some st }) t

/-! ## The Task-Scoped Unit-of-Work Runner -/

/-- Modelled from the spec: the Task-Scoped Unit-of-Work Runner (`taskFunction`
in `backend/client_actions/utils`, which is not under `src/`; spec section 4.2).
`func` is the wrapped unit of work, given the task and returning its outcome
together with the task as it mutated it.  On success: if
`setStateFromChildren`, aggregate the state from the children; else if
`setState`, set the state to SUCCESS; return the resolved value.  On thrown
failure: record the error on the task via `setError` and re-throw the same
error.  Finally, on both paths, `markAsComplete` the task. -/
def taskFunction {α : Type} (t : TaskTree) (func : TaskTree → Except Err α × TaskTree)
    (setState : Bool) (setStateFromChildren : Bool) : Except Err α × TaskTree :=
  match func t with
  | (.ok v, t1) =>
    let t2 :=
      if setStateFromChildren then setStateBasedOnChildren t1
      else if setState then setRoot (fun f => { f with state := some TaskState.success }) t1
      else t1
    (.ok v, markAsComplete t2)
  | (.error e, t1) =>
    (.error e, markAsComplete (setErrorAction e t1))

/-! ## The Tab Admission Controller

`TabCreator` in `src/backend/utils`: a FIFO queue of pending
`waitForFreeTabSlot` requests, an open-tab counter, and the time of the last
grant.  All mutations of the controller's state happen synchronously inside
one event-loop turn, so the controller is modelled as a state machine whose
events (a new request, a tracked tab closing, the re-drain timer firing) carry
the current clock value (`Date.now()`), and each event runs `drainQueue` to
completion.  Granted requests are recorded in grant order. -/

/-- The configuration the controller reads (`config.maxOpenTabs`, with `0`
meaning unlimited, and `config.tabOpenDelay` in milliseconds). -/
structure TabConfig where
  maxOpenTabs : Nat
  tabOpenDelay : Nat
deriving DecidableEq, Repr

/-- The controller's state: `openTabsCount` and `lastTabOpenTime` as in the
source, the FIFO `queue` of pending request ids (the source stores their
resolve callbacks), and the history of granted request ids in grant order. -/
structure TabCreatorState where
  openTabsCount : Nat
  lastTabOpenTime : Option Nat
  queue : List Nat
  granted : List Nat
deriving DecidableEq, Repr

/-- The constructor's initial state: no tabs, no last-open time, empty queue. -/
def initialTabCreatorState : TabCreatorState :=
  { openTabsCount := 0, lastTabOpenTime := none, queue := [], granted := [] }

/-- `slotFree` (`src/backend/utils`): a tab may be opened when the open-tab
count is below `maxOpenTabs` (or `maxOpenTabs` is `0`, unlimited) and either
no tab has been opened yet or at least `tabOpenDelay` ms have passed since the
last grant. -/
def slotFree (cfg : TabConfig) (now : Nat) (s : TabCreatorState) : Bool :=
  (cfg.maxOpenTabs == 0 || decide (s.openTabsCount < cfg.maxOpenTabs)) &&
    (s.lastTabOpenTime == none ||
      decide (cfg.tabOpenDelay ≤ now - s.lastTabOpenTime.getD 0))

/-- One iteration of the `drainQueue` loop body: shift the earliest request
off the queue, increment the open-tab count, stamp the grant time, and record
the grant.  (`startDrainQueueTimer` only schedules a later `timerFired` event
and does not change this state.) -/
def grantOne (now : Nat) (s : TabCreatorState) : TabCreatorState :=
  match s.queue with
  | [] => s
  | r :: rest =>
    { openTabsCount := s.openTabsCount + 1, lastTabOpenTime := some now,
      queue := rest, granted := s.granted ++ [r] }

/-- `drainQueue`: while requests are pending and a slot is free, grant the
earliest request.  (The `drainingQueue` reentrancy flag is not modelled:
promise resolution is asynchronous, so the granted callbacks cannot re-enter
the loop within the same event-loop turn.) -/
def drainQueue (cfg : TabConfig) (now : Nat) (s : TabCreatorState) : TabCreatorState :=
  match h : s.queue with
  | [] => s
  | _ :: _ =>
    if slotFree cfg now s then drainQueue cfg now (grantOne now s) else s
termination_by s.queue.length
decreasing_by simp [grantOne, h]

/-- `waitForFreeTabSlot`: push the request's resolve callback onto the queue,
then drain. -/
def waitForFreeTabSlot (cfg : TabConfig) (now : Nat) (rid : Nat)
    (s : TabCreatorState) : TabCreatorState :=
  drainQueue cfg now { s with queue := s.queue ++ [rid] }

/-- The controller's external events: a `waitForFreeTabSlot` call, a tracked
tab being removed (`browser.tabs.onRemoved` for a tab in `this.tabs`), and the
`startDrainQueueTimer` timeout firing.  Each event carries `Date.now()`. -/
inductive TabEvent where
  | request (rid : Nat) (now : Nat)
  | tabClosed (now : Nat)
  | timerFired (now : Nat)
deriving DecidableEq, Repr

/-- One event-loop turn of the controller. A tracked tab closing decrements
the open count and re-drains; the timer just re-drains. -/
def tabStep (cfg : TabConfig) (s : TabCreatorState) : TabEvent → TabCreatorState
  | .request rid now => waitForFreeTabSlot cfg now rid s
  | .tabClosed now => drainQueue cfg now { s with openTabsCount := s.openTabsCount - 1 }
  | .timerFired now => drainQueue cfg now s

/-- Run the controller from construction through a sequence of events. -/
def runTabEvents (cfg : TabConfig) (evs : List TabEvent) : TabCreatorState :=
  evs.foldl (tabStep cfg) initialTabCreatorState

/-- The request ids of a sequence of events, in arrival order. -/
def requestIds (evs : List TabEvent) : List Nat :=
  evs.filterMap (fun e =>
    match e with
    | .request rid _ => some rid
    | _ => none)

/-! ## Login and the Robust Login Retry Loop

`src/backend/client_actions/user.ts`.  `login` posts the login form (in a tab
when `keepTabOpen`, otherwise by AJAX), then checks whether the login
succeeded; a failure of that *check* is caught, recorded on the task via
`setError` and returned in the `checkLoginError` field of the resolved value
instead of rejecting.  `robustLogin` loops over `login`, re-throwing a defined
`checkLoginError`, and retries after a logout when the error is a
`LoginError` with code `WrongClient` and attempts remain. -/

/-- The value `login` resolves with (`LoginResponse` in `user.ts`): the id of
the logged-in tab (absent in the AJAX path) and any error from the post-login
check. -/
structure LoginResponse where
  tabId : Option Nat
  checkLoginError : Option Err
deriving DecidableEq, Repr

/-- The test `error.type === 'LoginError' && error.code === 'WrongClient'`
from `robustLogin`. -/
def isWrongClient (e : Err) : Bool :=
  e.type == "LoginError" && e.code == some "WrongClient"

/-- The outcomes of the external operations one `login` call performs, in
program order: the AJAX fetch of the login page plus the hidden `pwd` field
extraction, the captcha fetch-and-solve, the POST in a new tab
(`createTabPost`, yielding the tab id) and the wait for it to load
(`keepTabOpen` path), the POST by AJAX (the other path), and the post-login
check (`check_login` content script or `checkLogin(doc, client)`). -/
structure LoginEnv where
  loginPage : Except Err Unit
  captcha : Except Err Unit
  createTabPost : Except Err Nat
  tabLoad : Except Err Unit
  postAjax : Except Err Unit
  check : Except Err Unit
deriving Repr

/-- The body of `login`'s `func` (`user.ts` lines 167-241): returns the
outcome (resolved `LoginResponse` or thrown error), the task as mutated (the
`addStep` narration, `state = SUCCESS` on a successful check, `setError` on a
failed check), and the ids of tabs closed on the way out.  A failed check is
caught: it is recorded on the task, the tab is closed when `keepTabOpen`,
`closeOnErrors` and a tab id exist, and the response still resolves with
`checkLoginError` set.  Errors before a tab id exists propagate without
closing anything; a load failure after the tab was created closes it
(the outer catch). -/
def loginFunc (env : LoginEnv) (keepTabOpen closeOnErrors : Bool) (t : TaskTree) :
    Except Err LoginResponse × TaskTree × List Nat :=
  match env.loginPage with
  | .error e => (.error e, t, [])
  | .ok _ =>
    let t1 := addStep "Initiating login" 1 t
    match env.captcha with
    | .error e => (.error e, t1, [])
    | .ok _ =>
      let t2 := addStep "Waiting for login to complete" 1 t1
      if keepTabOpen then
        match env.createTabPost with
        | .error e => (.error e, t2, [])
        | .ok tid =>
          match env.tabLoad with
          | .error e => (.error e, t2, [tid])
          | .ok _ =>
            let t3 := addStep "Checking if login was successful" 1 t2
            match env.check with
            | .ok _ =>
              (.ok { tabId := some tid, checkLoginError := none },
                setRoot (fun f => { f with state := some TaskState.success }) t3, [])
            | .error ce =>
              (.ok { tabId := some tid, checkLoginError := some ce },
                setErrorAction ce t3,
                if closeOnErrors then [tid] else [])
      else
        match env.postAjax with
        | .error e => (.error e, t2, [])
        | .ok _ =>
          let t3 := addStep "Checking if login was successful" 1 t2
          match env.check with
          | .ok _ =>
            (.ok { tabId := none, checkLoginError := none },
              setRoot (fun f => { f with state := some TaskState.success }) t3, [])
          | .error ce =>
            (.ok { tabId := none, checkLoginError := some ce },
              setErrorAction ce t3, [])

/-- `login` (`user.ts` lines 148-243): the `loginFunc` body run through the
Task-Scoped Runner with `setState: false` (the body manages the task state
itself).  Returns the outcome, the task after the runner's bookkeeping, and
the tabs closed. -/
def login (env : LoginEnv) (keepTabOpen closeOnErrors : Bool) (t : TaskTree) :
    Except Err LoginResponse × TaskTree × List Nat :=
  let w := taskFunction t
    (fun tt => ((loginFunc env keepTabOpen closeOnErrors tt).1,
      (loginFunc env keepTabOpen closeOnErrors tt).2.1)) false false
  (w.1, w.2, (loginFunc env keepTabOpen closeOnErrors t).2.2)

/-- One entry of the trace of external calls `robustLogin` makes: the `i`-th
call to `login` or to `logout`. -/
inductive RLEvent where
  | loginAttempt (i : Nat)
  | logoutCall (i : Nat)
deriving DecidableEq, Repr

/-- The result of the robust-login loop: the outcome (the logged-in tab id or
the propagated error) and the trace of login/logout calls in order. -/
structure RLOutcome where
  result : Except Err (Option Nat)
  trace : List RLEvent

/-- The `while (run)` loop of `robustLogin` (`user.ts` lines 313-356),
parameterised by the outcomes of the successive `login` and `logout` calls:
the attempt's `login` outcome is the resolved response or the thrown error; a
resolved response with a defined `checkLoginError` is re-thrown
(`throw response.checkLoginError`).  A thrown `LoginError` with code
`WrongClient` while `attempts + 1 < maxAttempts` triggers a logout and
another attempt; any other error — or a failing logout — propagates. -/
def robustLoginAux (loginOutcome : Nat → Except Err LoginResponse)
    (logoutOutcome : Nat → Except Err Unit) (maxAttempts attempts : Nat)
    (trace : List RLEvent) : RLOutcome :=
  let trace1 := trace ++ [RLEvent.loginAttempt attempts]
  let outcome : Except Err (Option Nat) :=
    match loginOutcome attempts with
    | .error e => .error e
    | .ok resp =>
      match resp.checkLoginError with
      | some e => .error e
      | none => .ok resp.tabId
  match outcome with
  | .ok tid => ⟨.ok tid, trace1⟩
  | .error e =>
    if isWrongClient e && decide (attempts + 1 < maxAttempts) then
      match logoutOutcome attempts with
      | .ok _ =>
        robustLoginAux loginOutcome logoutOutcome maxAttempts (attempts + 1)
          (trace1 ++ [RLEvent.logoutCall attempts])
      | .error le => ⟨.error le, trace1 ++ [RLEvent.logoutCall attempts]⟩
    else ⟨.error e, trace1⟩
termination_by maxAttempts - attempts
decreasing_by
  simp only [Bool.and_eq_true, decide_eq_true_eq] at *
  omega

/-- `robustLogin` (`user.ts` lines 297-359): the loop run through the
Task-Scoped Runner on its own "Robust login" task (so a propagated error is
recorded on the task and re-thrown, and the task is always completed). -/
def robustLogin (loginOutcome : Nat → Except Err LoginResponse)
    (logoutOutcome : Nat → Except Err Unit) (maxAttempts : Nat) (t : TaskTree) :
    RLOutcome × TaskTree :=
  let o := robustLoginAux loginOutcome logoutOutcome maxAttempts 0 []
  let w := taskFunction t (fun tt => (o.result, tt)) true false
  (⟨w.1, o.trace⟩, w.2)

/-- The number of login attempts in a robust-login trace. -/
def countLogins (tr : List RLEvent) : Nat :=
  tr.countP (fun e => match e with | .loginAttempt _ => true | _ => false)

/-- The number of logouts in a robust-login trace. -/
def countLogouts (tr : List RLEvent) : Nat :=
  tr.countP (fun e => match e with | .logoutCall _ => true | _ => false)

/-- The trace of a run whose first `rem - 1` attempts (numbered from `a`) each
fail recoverably and are followed by a logout, ending at attempt
`a + rem - 1`: `login a, logout a, login (a+1), logout (a+1), …`. -/
def wcTrace (a : Nat) : Nat → List RLEvent
  | 0 => []
  | 1 => [RLEvent.loginAttempt a]
  | rem + 2 =>
    RLEvent.loginAttempt a :: RLEvent.logoutCall a :: wcTrace (a + 1) (rem + 1)

/-! ## The Parallel Task-Mapper and the Paged-Data Fetcher -/

/-- One per-item response of the Parallel Task-Mapper: the input item together
with the resolved value (`{ item, value }`) or the captured error
(`{ item, error }`). -/
structure ItemResponse (I V : Type) where
  item : I
  result : Except Err V
deriving Repr

/-- The aggregate rejection the mapper produces when `neverReject` is false
and at least one item failed. -/
def aggregateMapError : Err :=
  ⟨"ParallelTaskMapError", none, "One or more parallel tasks failed"⟩

/-- Modelled from the spec: the Parallel Task-Mapper (`parallelTaskMap` in
`backend/client_actions/utils`, which is not under `src/`; spec section 4.4).
Every item's function runs and its individual outcome is captured; responses
are indexed by the original item order, not completion order (spec section 5).
If `neverReject` the full response list is resolved regardless of failures;
otherwise any failure makes the whole promise reject with an aggregate error.
(The per-item child-task bookkeeping is not modelled; the claims about the
mapper concern its responses.) -/
def parallelTaskMap {I V : Type} (items : List I) (f : I → Except Err V)
    (neverReject : Bool) : Except Err (List (ItemResponse I V)) :=
  let rs := items.map (fun it => ItemResponse.mk it (f it))
  if neverReject then .ok rs
  else if rs.any (fun r => match r.result with | .error _ => true | .ok _ => false) then
    .error aggregateMapError
  else .ok rs

/-- What a page-fetch function returns: the total page count read from the
response and the page's payload. -/
structure PageData (V : Type) where
  numPages : Nat
  value : V
deriving DecidableEq, Repr

/-- One per-page response of the Paged-Data Fetcher: the page number with the
page's value or the captured error. -/
structure PageResponse (V : Type) where
  page : Nat
  result : Except Err V
deriving Repr

/-- Modelled from the spec: the Paged-Data Fetcher (`getPagedData` in
`backend/client_actions/utils`, which is not under `src/`; spec section 4.5).
With an empty `pages` list, page 1 is fetched alone to discover `numPages`
from its response, then pages `2..numPages` are fetched through the Parallel
Task-Mapper (in `neverReject` mode, so per-page failures are captured in the
responses); with a non-empty `pages` list exactly those pages are fetched. -/
def getPagedData {V : Type} (fetch : Nat → Except Err (PageData V))
    (pages : List Nat) : Except Err (List (PageResponse V)) :=
  if pages.isEmpty then
    match fetch 1 with
    | .error e => .error e
    | .ok r1 =>
      let restPages := List.range' 2 (r1.numPages - 1)
      match parallelTaskMap restPages (fun p => (fetch p).map PageData.value) true with
      | .error e => .error e
      | .ok rs =>
        .ok (PageResponse.mk 1 (.ok r1.value) ::
          rs.map (fun r => PageResponse.mk r.item r.result))
  else
    match parallelTaskMap pages (fun p => (fetch p).map PageData.value) true with
    | .error e => .error e
    | .ok rs => .ok (rs.map (fun r => PageResponse.mk r.item r.result))

/-- The merge loop of `getReceiptData` (`src/backend/client_actions/receipts`,
lines 389-402): walk the page responses in order, flattening the record arrays
of successful pages into `data` and collecting the page numbers of failed
pages into `failedPages`.  (The source's run-time check that each page's value
is an array cannot fail here, where the value is a list by type.) -/
def getReceiptData {R : Type} : List (PageResponse (List R)) → List R × List Nat
  | [] => ([], [])
  | r :: rest =>
    let (d, fp) := getReceiptData rest
    match r.result with
    | .ok v => (v ++ d, fp)
    | .error _ => (d, r.page :: fp)

/-! ## Fixtures and auxiliary predicates used in the statements -/

/-- "Login attempt with outcome `o` fails with error `e`": either the `login`
call itself rejected with `e`, or it resolved with `checkLoginError` set to
`e` (which `robustLogin` immediately re-throws). -/
def attemptFails (o : Except Err LoginResponse) (e : Err) : Prop :=
  o = .error e ∨ ∃ resp, o = .ok resp ∧ resp.checkLoginError = some e

/-- A leaf task (no children). -/
def leaf (f : TaskFields) : TaskTree :=
  .mk f []

/-- A `LoginError` with code `WrongClient`, the one recoverable login error. -/
def wcErr : Err :=
  ⟨"LoginError", some "WrongClient", "wrong client logged in"⟩

/-- A non-recoverable error. -/
def otherErr : Err :=
  ⟨"TabError", some "TimedOut", "tab timed out"⟩

/-- A post-login check error that is not a wrong-client error. -/
def chkErr : Err :=
  ⟨"LoginError", some "InvalidUsername", "invalid username or password"⟩

/-- A parent task whose auto-updating child is in state ERROR while a
non-auto-updating sibling is in state SUCCESS: every *auto-updating* child has
state ERROR, yet `setStateBasedOnChildren` computes WARNING because the source
compares the error count against the number of *all* children. -/
def ex3 : TaskTree :=
  .mk {}
    [ leaf { state := some TaskState.error, autoUpdateParent := true },
      leaf { state := some TaskState.success, autoUpdateParent := false } ]

/-- A parent task whose children all carry state ERROR. -/
def ex3all : TaskTree :=
  .mk {}
    [ leaf { state := some TaskState.error },
      leaf { state := some TaskState.error } ]

/-- A sequential composite with unknown max progress: the first auto-updating
child is complete, the second (progress 3 of 9) is the current one, the third
has not started. -/
def exSeq : TaskTree :=
  .mk { sequential := true, unknownMaxProgress := true }
    [ leaf { complete := true, progress := 4, progressMax := 4 },
      leaf { complete := false, progress := 3, progressMax := 9 },
      leaf { complete := false, progress := 0, progressMax := 5 } ]

/-- A parallel (non-sequential) composite with unknown max progress and three
auto-updating children with `progressMax = 10` each, the first at progress 5. -/
def exPar : TaskTree :=
  .mk { sequential := false, unknownMaxProgress := true }
    [ leaf { complete := false, progress := 5, progressMax := 10 },
      leaf { complete := false, progress := 0, progressMax := 10 },
      leaf { complete := false, progress := 0, progressMax := 10 } ]

/-- Tab admission fixture: `maxOpenTabs = 1`, no inter-open delay. -/
def cfg0 : TabConfig :=
  ⟨1, 0⟩

/-- Tab admission fixture: three requests arrive, then two tracked tabs
close. -/
def tabEvs0 : List TabEvent :=
  [ .request 10 0, .request 11 0, .request 12 0, .tabClosed 5, .tabClosed 9 ]

/-- Login-outcome fixture: every attempt rejects with the wrong-client
error. -/
def loAllWrong : Nat → Except Err LoginResponse :=
  fun _ => .error wcErr

/-- Logout-outcome fixture: every logout succeeds. -/
def lgOk : Nat → Except Err Unit :=
  fun _ => .ok ()

/-- Paged-fetch fixture: three pages, page 2 failing. -/
def fetch0 : Nat → Except Err (PageData (List Nat))
  | 1 => .ok ⟨3, [10]⟩
  | 2 => .error otherErr
  | _ => .ok ⟨3, [30, 31]⟩

/-- Login-environment fixture: every step succeeds except the post-login
check, which throws `chkErr`; the login tab gets id 77. -/
def env0 : LoginEnv :=
  { loginPage := .ok (), captcha := .ok (), createTabPost := .ok 77,
    tabLoad := .ok (), postAjax := .ok (), check := .error chkErr }

/-! # Theorems -/

/-! ## Basic equations for the derived getters -/

theorem derivedViews_nil : derivedViews [] = [] := by
  rw [derivedViews]

theorem derivedViews_cons (c : TaskTree) (rest : List TaskTree) :
    derivedViews (c :: rest) = viewOf c (derived c) :: derivedViews rest := by
  rw [derivedViews]

theorem derivedViews_eq_map (cs : List TaskTree) :
    derivedViews cs = cs.map (fun c => viewOf c (derived c)) := by
  induction cs with
  | nil => rw [derivedViews_nil, List.map_nil]
  | cons c rest ih => rw [derivedViews_cons, ih, List.map_cons]

theorem derived_mk (f : TaskFields) (cs : List TaskTree) :
    derived (TaskTree.mk f cs) =
      { complete :=
          if cs.length > 0 then (completeFromChildren (derivedViews cs)).getD f.complete
          else f.complete,
        progress :=
          if cs.length > 0 then
            (getChildProgress ProgType.progress f.unknownMaxProgress f.sequential
              (if cs.length > 0 then
                  (completeFromChildren (derivedViews cs)).getD f.complete
                else f.complete)
              (derivedViews cs)).getD f.progress
          else f.progress,
        progressMax :=
          if cs.length > 0 && f.unknownMaxProgress then
            (getChildProgress ProgType.progressMax f.unknownMaxProgress f.sequential
              (if cs.length > 0 then
                  (completeFromChildren (derivedViews cs)).getD f.complete
                else f.complete)
              (derivedViews cs)).getD f.progressMax
          else f.progressMax } := by
  rw [derived]

/-- A leaf's derived values are its stored fields. -/
theorem derived_leaf (f : TaskFields) :
    derived (leaf f) = ⟨f.complete, f.progress, f.progressMax⟩ := by
  rw [leaf, derived_mk]
  simp

/-- The derived `progressMax` does not depend on the root's stored `progress`,
`status`, `state`, `error` or `errorString`: only `complete`,
`unknownMaxProgress`, `sequential` and `progressMax` (as the fallback) enter
the computation. -/
theorem derived_progressMax_congr (f g : TaskFields) (cs : List TaskTree)
    (hc : f.complete = g.complete) (hu : f.unknownMaxProgress = g.unknownMaxProgress)
    (hs : f.sequential = g.sequential) (hm : f.progressMax = g.progressMax) :
    (derived (TaskTree.mk f cs)).progressMax = (derived (TaskTree.mk g cs)).progressMax := by
  rw [derived_mk, derived_mk, hc, hu, hs, hm]

/-! ## Field bookkeeping of the store actions -/

theorem setRoot_fields (g : TaskFields → TaskFields) (t : TaskTree) :
    (setRoot g t).fields = g t.fields := by
  cases t
  rfl

theorem setRoot_children (g : TaskFields → TaskFields) (t : TaskTree) :
    (setRoot g t).children = t.children := by
  cases t
  rfl

theorem markAsComplete_fields (t : TaskTree) :
    (markAsComplete t).fields =
      { t.fields with
        complete := true,
        status := "",
        progress := (derived (setRoot (fun f => { f with complete := true }) t)).progressMax } := by
  cases t
  rfl

theorem setErrorAction_fields (e : Err) (t : TaskTree) :
    (setErrorAction e t).fields =
      { t.fields with
        error := some e,
        errorString := errorToString e,
        state := some TaskState.error } := by
  cases t
  rfl

/-- After `markAsComplete`, the stored `progress` equals the derived
`progressMax` of the resulting task: the value stored was the derived maximum
computed right after `complete` was set, and the remaining commits only touch
`progress` and `status`, which the derived maximum does not read. -/
theorem markAsComplete_progress_eq_derivedMax (t : TaskTree) :
    (markAsComplete t).fields.progress = (derived (markAsComplete t)).progressMax := by
  obtain ⟨f, cs⟩ := t
  show (derived (TaskTree.mk { f with complete := true } cs)).progressMax = _
  exact derived_progressMax_congr _ _ cs rfl rfl rfl rfl

/-! ## C1: the Runner's completion invariant -/

/-- C1: for every task `t` and wrapped unit of work run through the
Task-Scoped Unit-of-Work Runner (`taskFunction`), once the runner's outcome is
settled — resolved or rejected — `markAsComplete` has been applied to the
task, so its stored `complete` flag is `true`, its stored `progress` equals
its derived `progressMax` at that moment, and its `status` is the empty
string. -/
theorem taskFunction_completion_invariant {α : Type} (t : TaskTree)
    (func : TaskTree → Except Err α × TaskTree) (s1 s2 : Bool) :
    (taskFunction t func s1 s2).2.fields.complete = true ∧
    (taskFunction t func s1 s2).2.fields.progress =
      (derived (taskFunction t func s1 s2).2).progressMax ∧
    (taskFunction t func s1 s2).2.fields.status = "" := by
  rcases hft : func t with ⟨r, t1⟩
  cases r with
  | ok v =>
    simp only [taskFunction, hft]
    exact ⟨by simp [markAsComplete_fields], markAsComplete_progress_eq_derivedMax _,
      by simp [markAsComplete_fields]⟩
  | error e =>
    simp only [taskFunction, hft]
    exact ⟨by simp [markAsComplete_fields], markAsComplete_progress_eq_derivedMax _,
      by simp [markAsComplete_fields]⟩

/-- Witness for C1 at a concrete task and a concretely succeeding unit of
work. -/
theorem taskFunction_completion_witness :
    (taskFunction (leaf {}) (fun tt => ((.ok 7 : Except Err Nat), tt))
        true false).2.fields.complete = true ∧
    (taskFunction (leaf {}) (fun tt => ((.ok 7 : Except Err Nat), tt))
        true false).2.fields.status = "" :=
  ⟨(taskFunction_completion_invariant (leaf {})
      (fun tt => ((.ok 7 : Except Err Nat), tt)) true false).1,
    (taskFunction_completion_invariant (leaf {})
      (fun tt => ((.ok 7 : Except Err Nat), tt)) true false).2.2⟩

/-! ## C2: the Runner's error propagation -/

/-- C2: if the wrapped unit of work throws an error `e`, the Task-Scoped
Runner rejects with that same error `e` (neither wrapped nor swallowed), and
afterwards the task's state is ERROR, its recorded `error` is `e`, and its
`errorString` is the rendered string form of `e`. -/
theorem taskFunction_error_propagation {α : Type} (t t1 : TaskTree)
    (func : TaskTree → Except Err α × TaskTree) (s1 s2 : Bool) (e : Err)
    (hft : func t = (.error e, t1)) :
    (taskFunction t func s1 s2).1 = .error e ∧
    (taskFunction t func s1 s2).2.fields.state = some TaskState.error ∧
    (taskFunction t func s1 s2).2.fields.error = some e ∧
    (taskFunction t func s1 s2).2.fields.errorString = errorToString e := by
  simp [taskFunction, hft, markAsComplete_fields, setErrorAction_fields]

/-- Witness for C2 at a concrete task and a concretely failing unit of
work. -/
theorem taskFunction_error_propagation_witness :
    (taskFunction (leaf {}) (fun tt => ((.error otherErr : Except Err Nat), tt)) true false).1 =
        .error otherErr ∧
    (taskFunction (leaf {}) (fun tt => ((.error otherErr : Except Err Nat), tt))
        true false).2.fields.state = some TaskState.error ∧
    (taskFunction (leaf {}) (fun tt => ((.error otherErr : Except Err Nat), tt))
        true false).2.fields.error = some otherErr ∧
    (taskFunction (leaf {}) (fun tt => ((.error otherErr : Except Err Nat), tt))
        true false).2.fields.errorString = errorToString otherErr :=
  taskFunction_error_propagation (leaf {}) (leaf {}) _ true false otherErr rfl

/-! ## C9: the Parallel Task-Mapper in `neverReject` mode -/

/-- C9: with `neverReject = true` the mapper resolves (never rejects) with
exactly one response per input item — the item with its resolved value or the
item with its captured error — and every item's response records that item's
own outcome, so one item's thrown error does not prevent any other item's
function from running and having its result recorded. -/
theorem parallelTaskMap_neverReject_isolation {I V : Type} (items : List I)
    (f : I → Except Err V) :
    parallelTaskMap items f true = .ok (items.map fun it => ItemResponse.mk it (f it)) ∧
    (items.map fun it => ItemResponse.mk it (f it)).length = items.length ∧
    ∀ i : Fin items.length,
      (items.map fun it => ItemResponse.mk it (f it))[(i : Nat)]? =
        some (ItemResponse.mk (items.get i) (f (items.get i))) := by
  refine ⟨rfl, by simp, ?_⟩
  intro i
  simp [List.getElem?_map, List.getElem?_eq_getElem i.isLt, List.get_eq_getElem]

/-- Witness for C9 at a concrete list whose middle item fails. -/
theorem parallelTaskMap_neverReject_witness :
    parallelTaskMap [1, 2, 3]
      (fun i => if i = 2 then (.error otherErr : Except Err Nat) else .ok (i * 10))
      true =
      .ok (([1, 2, 3] : List Nat).map fun it =>
        ItemResponse.mk it (if it = 2 then .error otherErr else .ok (it * 10))) :=
  (parallelTaskMap_neverReject_isolation [1, 2, 3]
    (fun i => if i = 2 then (.error otherErr : Except Err Nat) else .ok (i * 10))).1

/-! ## C3: state aggregation from children -/

/-- The `childStateCounts` entry read through `|| 0` (reading a missing key as
`undefined`, which is not `> 0`) is just the raw count. -/
theorem childStateCountEntry_getD (st : TaskState) (cs : List TaskTree) :
    (childStateCountEntry st cs).getD 0 = childStateCount st cs := by
  rw [childStateCountEntry]
  split
  · simp_all
  · rfl

/-- C3 counterexample: the claim states the parent becomes ERROR whenever all
of its *auto-updating* children have state ERROR.  In `ex3` the only
auto-updating child has state ERROR and there is at least one child, yet
`setStateBasedOnChildren` sets the parent to WARNING, because the source
compares the ERROR count of *all* children against the number of *all*
children (`childStateCounts[ERROR] === children.length`), with no
`autoUpdateParent` filter. -/
theorem setStateBasedOnChildren_claim_counterexample :
    (∀ c ∈ ex3.children, c.fields.autoUpdateParent = true →
      c.fields.state = some TaskState.error) ∧
    1 ≤ ex3.children.length ∧
    (setStateBasedOnChildren ex3).fields.state = some TaskState.warning ∧
    (setStateBasedOnChildren ex3).fields.state ≠ some TaskState.error := by
  decide

/-- The ERROR-entry comparison against `children.length` in
`setStateBasedOnChildren` detects exactly "every child has that state", given
at least one child. -/
theorem childStateCountEntry_eq_len_iff (st : TaskState) (cs : List TaskTree)
    (h : 1 ≤ cs.length) :
    ((childStateCountEntry st cs == some cs.length) = true) ↔
      ((cs.all fun c => c.fields.state == some st) = true) := by
  rw [childStateCountEntry]
  by_cases h0 : childStateCount st cs = 0
  · rw [if_pos h0]
    constructor
    · intro hx
      exact absurd hx (by simp)
    · intro hall
      exfalso
      have hc := List.countP_eq_length.mpr (List.all_eq_true.mp hall)
      rw [childStateCount] at h0
      omega
  · rw [if_neg h0]
    have : ((some (childStateCount st cs) == some cs.length) = true) ↔
        childStateCount st cs = cs.length := by
      simp
    rw [this, childStateCount]
    exact ⟨fun hx => List.all_eq_true.mpr (List.countP_eq_length.mp hx),
      fun hall => List.countP_eq_length.mpr (List.all_eq_true.mp hall)⟩

/-- The `> 0` test on the ERROR/WARNING entries detects exactly "some child
has state ERROR or WARNING". -/
theorem childStateCountEntry_pos_iff (cs : List TaskTree) :
    ((decide ((childStateCountEntry TaskState.error cs).getD 0 > 0) ||
        decide ((childStateCountEntry TaskState.warning cs).getD 0 > 0)) = true) ↔
      ((cs.any fun c =>
        c.fields.state == some TaskState.error ||
        c.fields.state == some TaskState.warning) = true) := by
  simp only [childStateCountEntry_getD, childStateCount, Bool.or_eq_true,
    decide_eq_true_eq, gt_iff_lt, List.countP_pos_iff, List.any_eq_true]
  constructor
  · rintro (⟨c, hc, h1⟩ | ⟨c, hc, h1⟩)
    · exact ⟨c, hc, by simp [h1]⟩
    · exact ⟨c, hc, by simp [h1]⟩
  · rintro ⟨c, hc, h1⟩
    rcases h1 with h1 | h1
    · exact Or.inl ⟨c, hc, h1⟩
    · exact Or.inr ⟨c, hc, h1⟩

/-- C3 (amended): for every node with at least one child,
`setStateBasedOnChildren` sets the node's state to ERROR when *all of its
children* (auto-updating or not) have state ERROR, to WARNING when at least
one child has state ERROR or WARNING but not all children are ERROR, and to
SUCCESS otherwise (children with unset state count toward the total but have
no state entry). -/
theorem setStateBasedOnChildren_amended (t : TaskTree) (h : 1 ≤ t.children.length) :
    (setStateBasedOnChildren t).fields.state =
      some (if t.children.all (fun c => c.fields.state == some TaskState.error) then
          TaskState.error
        else if t.children.any (fun c =>
            c.fields.state == some TaskState.error ||
            c.fields.state == some TaskState.warning) then TaskState.warning
        else TaskState.success) := by
  obtain ⟨f, cs⟩ := t
  have hcs : (TaskTree.mk f cs).children = cs := rfl
  rw [hcs] at h ⊢
  rw [setStateBasedOnChildren, setRoot_fields, hcs]
  show some _ = some _
  congr 1
  by_cases hall : cs.all (fun c => c.fields.state == some TaskState.error) = true
  · rw [if_pos hall, if_pos ((childStateCountEntry_eq_len_iff TaskState.error cs h).mpr hall)]
  · rw [if_neg hall,
      if_neg (fun hx => hall ((childStateCountEntry_eq_len_iff TaskState.error cs h).mp hx))]
    by_cases hany : cs.any (fun c =>
        c.fields.state == some TaskState.error ||
        c.fields.state == some TaskState.warning) = true
    · rw [if_pos hany, if_pos ((childStateCountEntry_pos_iff cs).mpr hany)]
    · rw [if_neg hany, if_neg (fun hx => hany ((childStateCountEntry_pos_iff cs).mp hx))]

/-- Witness for the amended C3 at a parent whose two children are both in
state ERROR: the parent becomes ERROR. -/
theorem setStateBasedOnChildren_amended_witness :
    1 ≤ ex3all.children.length ∧
    (setStateBasedOnChildren ex3all).fields.state = some TaskState.error := by
  refine ⟨by decide, ?_⟩
  have h := setStateBasedOnChildren_amended ex3all (by decide)
  rw [h]
  decide

/-! ## C4, C5: derived progress of composites -/

/-- Characterisation of the `complete` getter's child loop: some auto-updating
child incomplete gives `some false`; all auto-updating children complete (and
at least one) gives `some true`; no auto-updating children gives `none`. -/
theorem completeFromChildren_eq (views : List ChildView) :
    completeFromChildren views =
      if views.any (fun v => v.auto && !v.complete) then some false
      else if views.any (fun v => v.auto) then some true
      else none := by
  induction views with
  | nil => simp [completeFromChildren]
  | cons v rest ih =>
    by_cases hauto : v.auto
    · by_cases hcomp : v.complete
      · rw [completeFromChildren, if_pos hauto, if_neg (by simp [hcomp]), ih]
        by_cases h1 : rest.any (fun v => v.auto && !v.complete) = true
        · simp [h1, hauto, hcomp, List.any_cons]
        · have h1f : rest.any (fun v => v.auto && !v.complete) = false := by
            simp only [Bool.not_eq_true] at h1
            exact h1
          by_cases h2 : rest.any (fun v => v.auto) = true
          · simp [h1f, h2, hauto, hcomp, List.any_cons]
          · have h2f : rest.any (fun v => v.auto) = false := by
              simp only [Bool.not_eq_true] at h2
              exact h2
            simp [h1f, h2f, hauto, hcomp, List.any_cons]
      · simp [completeFromChildren, hauto, hcomp, List.any_cons]
    · simp [completeFromChildren, hauto, ih, List.any_cons]

/-- The `getChildProgress` loop under `unknownMaxProgress` and `sequential`:
the result is the first not-yet-complete auto-updating child's value (the
`break` in the source), or the accumulator if there is none. -/
theorem childProgressLoop_seq (views : List ChildView) (acc : Rat) (hasAuto : Bool) :
    childProgressLoop ProgType.progress true true acc hasAuto views =
      match views.find? (fun v => v.auto && !v.complete) with
      | some v => (v.progress, true)
      | none => (acc, hasAuto || views.any (fun v => v.auto)) := by
  induction views generalizing acc hasAuto with
  | nil => simp [childProgressLoop]
  | cons v rest ih =>
    by_cases hauto : v.auto
    · by_cases hcomp : v.complete
      · have hp : (v.auto && !v.complete) = false := by simp [hauto, hcomp]
        simp [childProgressLoop, hauto, hcomp, ih, List.find?_cons, hp, List.any_cons]
      · have hp : (v.auto && !v.complete) = true := by simp [hauto, hcomp]
        simp [childProgressLoop, childValue, hauto, hcomp, List.find?_cons, hp]
    · have hp : (v.auto && !v.complete) = false := by simp [hauto]
      simp [childProgressLoop, hauto, ih, List.find?_cons, hp, List.any_cons]

/-- The `getChildProgress` loop under `unknownMaxProgress` without
`sequential`: the result is the accumulator plus the sum of the auto-updating
children's values. -/
theorem childProgressLoop_par (ty : ProgType) (views : List ChildView) (acc : Rat)
    (hasAuto : Bool) :
    childProgressLoop ty true false acc hasAuto views =
      (acc + ((views.filter (fun v => v.auto)).map (childValue ty)).sum,
        hasAuto || views.any (fun v => v.auto)) := by
  induction views generalizing acc hasAuto with
  | nil => simp [childProgressLoop]
  | cons v rest ih =>
    by_cases hauto : v.auto
    · simp only [childProgressLoop, hauto, ih, List.filter_cons, List.any_cons,
        if_true, Bool.not_false, List.map_cons, List.sum_cons, Bool.true_or]
      rw [Prod.mk.injEq]
      exact ⟨by ring, by simp⟩
    · simp [childProgressLoop, hauto, ih, List.filter_cons, List.any_cons]

theorem leaf_fields (f : TaskFields) : (leaf f).fields = f := rfl

theorem derived_complete_pos (f : TaskFields) (cs : List TaskTree) (h : 0 < cs.length) :
    (derived (TaskTree.mk f cs)).complete =
      (completeFromChildren (derivedViews cs)).getD f.complete := by
  rw [derived_mk]
  simp [h]

theorem derived_progress_pos (f : TaskFields) (cs : List TaskTree) (h : 0 < cs.length) :
    (derived (TaskTree.mk f cs)).progress =
      (getChildProgress ProgType.progress f.unknownMaxProgress f.sequential
        ((completeFromChildren (derivedViews cs)).getD f.complete)
        (derivedViews cs)).getD f.progress := by
  rw [derived_mk]
  simp [h]

theorem derived_progressMax_pos (f : TaskFields) (cs : List TaskTree) (h : 0 < cs.length)
    (hu : f.unknownMaxProgress = true) :
    (derived (TaskTree.mk f cs)).progressMax =
      (getChildProgress ProgType.progressMax f.unknownMaxProgress f.sequential
        ((completeFromChildren (derivedViews cs)).getD f.complete)
        (derivedViews cs)).getD f.progressMax := by
  rw [derived_mk]
  simp [h, hu]

/-- C4: for a composite task with `sequential = true` and
`unknownMaxProgress = true` that is not yet (derivedly) complete and has at
least one auto-updating child, the derived `progress` getter returns the own
derived progress of the first — in child-creation order — auto-updating child
that is not yet complete, ignoring all later children.  (Once that child
completes, the same statement applied to the new state gives the next
incomplete auto-updating child's progress.) -/
theorem derived_progress_sequential_firstIncomplete (f : TaskFields) (cs : List TaskTree)
    (hseq : f.sequential = true) (hunk : f.unknownMaxProgress = true)
    (hcomp : (derived (TaskTree.mk f cs)).complete = false)
    (hauto : ∃ c ∈ cs, c.fields.autoUpdateParent = true) :
    ∃ c, cs.find? (fun c2 => c2.fields.autoUpdateParent && !(derived c2).complete) = some c ∧
      (derived (TaskTree.mk f cs)).progress = (derived c).progress := by
  obtain ⟨c0, hc0, hc0a⟩ := hauto
  have hlen : 0 < cs.length := List.length_pos_of_mem hc0
  have hviews : derivedViews cs = cs.map (fun c => viewOf c (derived c)) :=
    derivedViews_eq_map cs
  have hanyAuto : ((cs.map (fun c => viewOf c (derived c))).any (fun v => v.auto)) = true :=
    List.any_eq_true.mpr ⟨viewOf c0 (derived c0), List.mem_map_of_mem _ hc0,
      by simpa [viewOf] using hc0a⟩
  have hdcomp :
      (completeFromChildren (cs.map (fun c => viewOf c (derived c)))).getD f.complete =
        false := by
    rw [← hviews, ← derived_complete_pos f cs hlen]
    exact hcomp
  have hany2 : ((cs.map (fun c => viewOf c (derived c))).any
      (fun v => v.auto && !v.complete)) = true := by
    by_contra hn
    have hnf : ((cs.map (fun c => viewOf c (derived c))).any
        (fun v => v.auto && !v.complete)) = false := by
      simpa using hn
    rw [completeFromChildren_eq, hnf, hanyAuto] at hdcomp
    simp at hdcomp
  have hsome : ((cs.map (fun c => viewOf c (derived c))).find?
      (fun v => v.auto && !v.complete)).isSome :=
    List.find?_isSome.mpr (List.any_eq_true.mp hany2)
  obtain ⟨w, hfindviews⟩ := Option.isSome_iff_exists.mp hsome
  have hfc : (cs.find? (fun c2 =>
      c2.fields.autoUpdateParent && !(derived c2).complete)).map
        (fun c => viewOf c (derived c)) = some w := by
    have hmapped := hfindviews
    rw [List.find?_map] at hmapped
    exact hmapped
  obtain ⟨c, hcfind, hgc⟩ := Option.map_eq_some'.mp hfc
  refine ⟨c, hcfind, ?_⟩
  rw [derived_progress_pos f cs hlen, hviews, hdcomp, hunk, hseq, getChildProgress]
  rw [childProgressLoop_seq, hfindviews]
  rw [← hgc]
  rfl

/-- Witness for C4 at `exSeq`: the first child is complete, so the parent's
derived progress is the second child's progress, 3, regardless of the third
child. -/
theorem derived_progress_sequential_witness : (derived exSeq).progress = 3 := by
  have hv : derivedViews
      [ leaf { complete := true, progress := 4, progressMax := 4 },
        leaf { complete := false, progress := 3, progressMax := 9 },
        leaf { complete := false, progress := 0, progressMax := 5 } ] =
      [ ⟨true, true, 4, 4⟩, ⟨true, false, 3, 9⟩, ⟨true, false, 0, 5⟩ ] := by
    simp [derivedViews_cons, derivedViews_nil, derived_leaf, viewOf, leaf_fields]
  have hcompEx : (derived exSeq).complete = false := by
    rw [exSeq, derived_complete_pos _ _ (by simp), hv]
    simp [completeFromChildren]
  obtain ⟨c, hfind, hprog⟩ := derived_progress_sequential_firstIncomplete
    { sequential := true, unknownMaxProgress := true }
    [ leaf { complete := true, progress := 4, progressMax := 4 },
      leaf { complete := false, progress := 3, progressMax := 9 },
      leaf { complete := false, progress := 0, progressMax := 5 } ]
    rfl rfl hcompEx ⟨_, List.mem_cons_self _ _, rfl⟩
  have hfe : ([ leaf { complete := true, progress := 4, progressMax := 4 },
      leaf { complete := false, progress := 3, progressMax := 9 },
      leaf { complete := false, progress := 0, progressMax := 5 } ] :
        List TaskTree).find?
      (fun c2 => c2.fields.autoUpdateParent && !(derived c2).complete) =
      some (leaf { complete := false, progress := 3, progressMax := 9 }) := by
    simp [List.find?, derived_leaf, leaf_fields]
  rw [hfe] at hfind
  injection hfind with hc
  subst hc
  rw [exSeq]
  rw [hprog, derived_leaf]

/-- C5: for a composite task with `unknownMaxProgress = true` and
`sequential = false` that is not yet (derivedly) complete and has at least one
auto-updating child, the derived `progressMax` is the sum of the auto-updating
children's own derived `progressMax` values and the derived `progress` is the
sum of their derived `progress` values; the task's stored `progressMax` field
does not enter (the right-hand sides do not mention it). -/
theorem derived_progress_parallel_sums (f : TaskFields) (cs : List TaskTree)
    (hseq : f.sequential = false) (hunk : f.unknownMaxProgress = true)
    (hcomp : (derived (TaskTree.mk f cs)).complete = false)
    (hauto : ∃ c ∈ cs, c.fields.autoUpdateParent = true) :
    (derived (TaskTree.mk f cs)).progressMax =
      ((cs.filter (fun c => c.fields.autoUpdateParent)).map
        (fun c => (derived c).progressMax)).sum ∧
    (derived (TaskTree.mk f cs)).progress =
      ((cs.filter (fun c => c.fields.autoUpdateParent)).map
        (fun c => (derived c).progress)).sum := by
  obtain ⟨c0, hc0, hc0a⟩ := hauto
  have hlen : 0 < cs.length := List.length_pos_of_mem hc0
  have hviews : derivedViews cs = cs.map (fun c => viewOf c (derived c)) :=
    derivedViews_eq_map cs
  have hanyAuto : ((cs.map (fun c => viewOf c (derived c))).any (fun v => v.auto)) = true :=
    List.any_eq_true.mpr ⟨viewOf c0 (derived c0), List.mem_map_of_mem _ hc0,
      by simpa [viewOf] using hc0a⟩
  have hdcomp :
      (completeFromChildren (cs.map (fun c => viewOf c (derived c)))).getD f.complete =
        false := by
    rw [← hviews, ← derived_complete_pos f cs hlen]
    exact hcomp
  constructor
  · rw [derived_progressMax_pos f cs hlen hunk, hviews, hdcomp, hunk, hseq,
      getChildProgress]
    rw [childProgressLoop_par]
    simp only [hanyAuto, Bool.or_true, Bool.or_false, Bool.false_or]
    rw [List.filter_map, List.map_map]
    simp [Function.comp_def, viewOf, childValue]
  · rw [derived_progress_pos f cs hlen, hviews, hdcomp, hunk, hseq, getChildProgress]
    rw [childProgressLoop_par]
    simp only [hanyAuto, Bool.or_true, Bool.or_false, Bool.false_or]
    rw [List.filter_map, List.map_map]
    simp [Function.comp_def, viewOf, childValue]

/-- Witness for C5 at `exPar`: three auto-updating children with maximum 10
each, the first at progress 5: derived `progressMax` is 30 and derived
`progress` is 5. -/
theorem derived_progress_parallel_witness :
    (derived exPar).progressMax = 30 ∧ (derived exPar).progress = 5 := by
  have hcompEx : (derived exPar).complete = false := by
    rw [exPar, derived_complete_pos _ _ (by simp)]
    simp [derivedViews_cons, derivedViews_nil, derived_leaf, viewOf, leaf_fields,
      completeFromChildren]
  obtain ⟨h1, h2⟩ := derived_progress_parallel_sums
    { sequential := false, unknownMaxProgress := true }
    [ leaf { complete := false, progress := 5, progressMax := 10 },
      leaf { complete := false, progress := 0, progressMax := 10 },
      leaf { complete := false, progress := 0, progressMax := 10 } ]
    rfl rfl hcompEx ⟨_, List.mem_cons_self _ _, rfl⟩
  constructor
  · rw [exPar, h1]
    simp [List.filter, leaf_fields, derived_leaf]
    norm_num
  · rw [exPar, h2]
    simp [List.filter, leaf_fields, derived_leaf]

/-! ## C6: the Tab Admission Controller -/

theorem drainQueue_eq (cfg : TabConfig) (now : Nat) (s : TabCreatorState) :
    drainQueue cfg now s =
      if s.queue = [] then s
      else if slotFree cfg now s then drainQueue cfg now (grantOne now s) else s := by
  conv_lhs => rw [drainQueue.eq_def]
  split
  · next heq => rw [if_pos heq]
  · next r rest heq => rw [if_neg (show ¬s.queue = [] by simp [heq])]

/-- Draining moves requests from the front of the queue to the back of the
grant history and never drops one: `granted ++ queue` is invariant. -/
theorem drainQueue_preserves (cfg : TabConfig) (now : Nat) :
    ∀ n s, s.queue.length ≤ n →
      (drainQueue cfg now s).granted ++ (drainQueue cfg now s).queue =
        s.granted ++ s.queue := by
  intro n
  induction n with
  | zero =>
    intro s h
    have hq : s.queue = [] := List.eq_nil_of_length_eq_zero (by omega)
    rw [drainQueue_eq, if_pos hq]
  | succ n ih =>
    intro s h
    rw [drainQueue_eq]
    by_cases hq : s.queue = []
    · rw [if_pos hq]
    · rw [if_neg hq]
      by_cases hf : slotFree cfg now s = true
      · rw [if_pos hf]
        rcases hqe : s.queue with _ | ⟨r, rest⟩
        · exact absurd hqe hq
        · have hg : (grantOne now s).queue.length ≤ n := by
            rw [hqe] at h
            simp [grantOne, hqe]
            simp at h
            omega
          rw [ih (grantOne now s) hg]
          simp [grantOne, hqe, List.append_assoc]
      · rw [if_neg hf]

/-- `drainQueue` is a chain of `grantOne` steps in each of which a slot was
free at the current state. -/
theorem drainQueue_iterate (cfg : TabConfig) (now : Nat) :
    ∀ n s, s.queue.length ≤ n →
      ∃ k, drainQueue cfg now s = (grantOne now)^[k] s ∧
        ∀ i, i < k → slotFree cfg now ((grantOne now)^[i] s) = true := by
  intro n
  induction n with
  | zero =>
    intro s h
    have hq : s.queue = [] := List.eq_nil_of_length_eq_zero (by omega)
    exact ⟨0, by rw [drainQueue_eq, if_pos hq]; rfl, fun i hi => absurd hi (by omega)⟩
  | succ n ih =>
    intro s h
    by_cases hq : s.queue = []
    · exact ⟨0, by rw [drainQueue_eq, if_pos hq]; rfl, fun i hi => absurd hi (by omega)⟩
    · by_cases hf : slotFree cfg now s = true
      · have hlen : (grantOne now s).queue.length ≤ n := by
          rcases hqe : s.queue with _ | ⟨r, rest⟩
          · exact absurd hqe hq
          · rw [hqe] at h
            simp [grantOne, hqe]
            simp at h
            omega
        obtain ⟨k, hk1, hk2⟩ := ih (grantOne now s) hlen
        refine ⟨k + 1, ?_, ?_⟩
        · rw [drainQueue_eq, if_neg hq, if_pos hf, hk1, Function.iterate_succ_apply]
        · intro i hi
          cases i with
          | zero => simpa using hf
          | succ i =>
            rw [Function.iterate_succ_apply]
            exact hk2 i (by omega)
      · exact ⟨0, by rw [drainQueue_eq, if_neg hq, if_neg hf]; rfl,
          fun i hi => absurd hi (by omega)⟩

/-- Across any event sequence, `granted ++ queue` accumulates exactly the
arriving request ids in arrival order. -/
theorem runTab_invariant (cfg : TabConfig) :
    ∀ (evs : List TabEvent) (s : TabCreatorState),
      (evs.foldl (tabStep cfg) s).granted ++ (evs.foldl (tabStep cfg) s).queue =
        s.granted ++ s.queue ++ requestIds evs := by
  intro evs
  induction evs with
  | nil => intro s; simp [requestIds]
  | cons e evs ih =>
    intro s
    rw [List.foldl_cons, ih]
    cases e with
    | request rid now =>
      have hp := drainQueue_preserves cfg now
        ({ s with queue := s.queue ++ [rid] } : TabCreatorState).queue.length
        { s with queue := s.queue ++ [rid] } le_rfl
      show (drainQueue cfg now { s with queue := s.queue ++ [rid] }).granted ++
          (drainQueue cfg now { s with queue := s.queue ++ [rid] }).queue ++
            requestIds evs = _
      rw [hp]
      simp [requestIds, List.filterMap_cons, List.append_assoc]
    | tabClosed now =>
      have hp := drainQueue_preserves cfg now
        ({ s with openTabsCount := s.openTabsCount - 1 } : TabCreatorState).queue.length
        { s with openTabsCount := s.openTabsCount - 1 } le_rfl
      show (drainQueue cfg now { s with openTabsCount := s.openTabsCount - 1 }).granted ++
          (drainQueue cfg now { s with openTabsCount := s.openTabsCount - 1 }).queue ++
            requestIds evs = _
      rw [hp]
      simp [requestIds, List.filterMap_cons]
    | timerFired now =>
      have hp := drainQueue_preserves cfg now s.queue.length s le_rfl
      show (drainQueue cfg now s).granted ++ (drainQueue cfg now s).queue ++
          requestIds evs = _
      rw [hp]
      simp [requestIds, List.filterMap_cons]

/-- C6: the Tab Admission Controller serves `waitForFreeTabSlot` requests in
strict FIFO order and never rejects one: after any event sequence, the granted
ids followed by the still-pending queue are exactly the request ids in arrival
order (so grants are an in-order prefix and no request is dropped).  Moreover
every grant happens in a state where `slotFree` held: the open-tab count was
under `maxOpenTabs` (or `maxOpenTabs = 0`) and either no tab had been granted
yet or `tabOpenDelay` ms had passed since the most recent grant. -/
theorem tabCreator_fifo_and_gating :
    (∀ cfg evs, (runTabEvents cfg evs).granted ++ (runTabEvents cfg evs).queue =
      requestIds evs) ∧
    (∀ cfg now s, ∃ k, drainQueue cfg now s = (grantOne now)^[k] s ∧
      ∀ i, i < k → slotFree cfg now ((grantOne now)^[i] s) = true) := by
  constructor
  · intro cfg evs
    have h := runTab_invariant cfg evs initialTabCreatorState
    simpa [runTabEvents, initialTabCreatorState] using h
  · intro cfg now s
    exact drainQueue_iterate cfg now s.queue.length s le_rfl

/-- Witness for C6: with `maxOpenTabs = 1`, three requests and two tab-close
events leave the grant history plus pending queue as exactly `[10, 11, 12]` in
arrival order. -/
theorem tabCreator_fifo_witness :
    (runTabEvents cfg0 tabEvs0).granted ++ (runTabEvents cfg0 tabEvs0).queue =
      [10, 11, 12] := by
  have h := tabCreator_fifo_and_gating.1 cfg0 tabEvs0
  rw [h]
  decide

/-! ## C7: the Robust Login Retry Loop -/

/-- The runner returns the wrapped outcome unchanged. -/
theorem taskFunction_result_id {α : Type} (t : TaskTree) (r : Except Err α)
    (s1 s2 : Bool) :
    (taskFunction t (fun tt => (r, tt)) s1 s2).1 = r := by
  cases r <;> rfl

/-- One recoverable iteration of `robustLogin`: the attempt fails with a
wrong-client error, attempts remain, the logout succeeds — the loop logs out
and retries. -/
theorem robustLoginAux_step_retry (lo : Nat → Except Err LoginResponse)
    (lg : Nat → Except Err Unit) (m a : Nat) (tr : List RLEvent) (e : Err)
    (hfail : attemptFails (lo a) e) (hwc : isWrongClient e = true)
    (hlt : a + 1 < m) (hlg : lg a = .ok ()) :
    robustLoginAux lo lg m a tr =
      robustLoginAux lo lg m (a + 1)
        (tr ++ [RLEvent.loginAttempt a, RLEvent.logoutCall a]) := by
  rw [robustLoginAux]
  rcases hfail with hfail | ⟨resp, hresp, hchk⟩
  · simp [hfail, hwc, hlt, hlg]
  · simp [hresp, hchk, hwc, hlt, hlg]

/-- A terminally failing attempt: either the error is not the wrong-client
error, or no attempts remain — the loop stops and propagates the error. -/
theorem robustLoginAux_step_fail (lo : Nat → Except Err LoginResponse)
    (lg : Nat → Except Err Unit) (m a : Nat) (tr : List RLEvent) (e : Err)
    (hfail : attemptFails (lo a) e)
    (hstop : isWrongClient e = false ∨ ¬(a + 1 < m)) :
    robustLoginAux lo lg m a tr = ⟨.error e, tr ++ [RLEvent.loginAttempt a]⟩ := by
  rw [robustLoginAux]
  have hcond : (isWrongClient e && decide (a + 1 < m)) = false := by
    rcases hstop with h | h <;> simp [h]
  rcases hfail with hfail | ⟨resp, hresp, hchk⟩
  · simp [hfail, hcond]
  · simp [hresp, hchk, hcond]

/-- If every attempt from `a` on (up to `m`) fails with a wrong-client error
and the intervening logouts succeed, the loop runs `login a, logout a,
login (a+1), …, login (m-1)` and rejects with the last error. -/
theorem robustLoginAux_allWrong (lo : Nat → Except Err LoginResponse)
    (lg : Nat → Except Err Unit) (m : Nat) (errs : Nat → Err)
    (hfail : ∀ i, i < m → attemptFails (lo i) (errs i))
    (hwc : ∀ i, i < m → isWrongClient (errs i) = true)
    (hlg : ∀ j, j + 1 < m → lg j = .ok ()) :
    ∀ a tr, a < m →
      robustLoginAux lo lg m a tr = ⟨.error (errs (m - 1)), tr ++ wcTrace a (m - a)⟩ := by
  suffices H : ∀ k a tr, a < m → m - a = k →
      robustLoginAux lo lg m a tr =
        ⟨.error (errs (m - 1)), tr ++ wcTrace a (m - a)⟩ by
    intro a tr ha
    exact H (m - a) a tr ha rfl
  intro k
  induction k with
  | zero =>
    intro a tr ha hk
    omega
  | succ k ih =>
    intro a tr ha hk
    by_cases hlast : a + 1 < m
    · rw [robustLoginAux_step_retry lo lg m a tr (errs a) (hfail a ha) (hwc a ha)
        hlast (hlg a hlast)]
      rw [ih (a + 1) _ hlast (by omega)]
      have h2 : m - a = (m - a - 2) + 2 := by omega
      have h3 : m - (a + 1) = (m - a - 2) + 1 := by omega
      rw [h3, h2, wcTrace]
      simp [List.append_assoc]
    · have ham : a = m - 1 := by omega
      rw [robustLoginAux_step_fail lo lg m a tr (errs a) (hfail a ha) (Or.inr hlast)]
      have h1 : m - a = 1 := by omega
      rw [h1, wcTrace, ham]

/-- If the attempts before `k` fail recoverably with successful logouts and
attempt `k` fails with an error that is not the wrong-client error, the loop
stops right there and propagates that error. -/
theorem robustLoginAux_stopEarly (lo : Nat → Except Err LoginResponse)
    (lg : Nat → Except Err Unit) (m : Nat) (errs : Nat → Err) (k : Nat) (e : Err)
    (hk : k < m)
    (hfail : ∀ i, i < k → attemptFails (lo i) (errs i))
    (hwc : ∀ i, i < k → isWrongClient (errs i) = true)
    (hlg : ∀ j, j + 1 ≤ k → lg j = .ok ())
    (hfk : attemptFails (lo k) e) (hnw : isWrongClient e = false) :
    ∀ a tr, a ≤ k →
      robustLoginAux lo lg m a tr = ⟨.error e, tr ++ wcTrace a (k + 1 - a)⟩ := by
  suffices H : ∀ d a tr, a ≤ k → k - a = d →
      robustLoginAux lo lg m a tr = ⟨.error e, tr ++ wcTrace a (k + 1 - a)⟩ by
    intro a tr ha
    exact H (k - a) a tr ha rfl
  intro d
  induction d with
  | zero =>
    intro a tr ha hd
    have hak : a = k := by omega
    subst hak
    rw [robustLoginAux_step_fail lo lg m a tr e hfk (Or.inl hnw)]
    have h1 : a + 1 - a = 1 := by omega
    rw [h1, wcTrace]
  | succ d ih =>
    intro a tr ha hd
    have hak : a < k := by omega
    rw [robustLoginAux_step_retry lo lg m a tr (errs a) (hfail a hak) (hwc a hak)
      (by omega) (hlg a (by omega))]
    rw [ih (a + 1) _ (by omega) (by omega)]
    have h2 : k + 1 - a = (k - a - 1) + 2 := by omega
    have h3 : k + 1 - (a + 1) = (k - a - 1) + 1 := by omega
    rw [h3, h2, wcTrace]
    simp [List.append_assoc]

theorem countLogins_wcTrace : ∀ rem a, countLogins (wcTrace a rem) = rem := by
  intro rem
  induction rem using Nat.strong_induction_on with
  | _ rem ih =>
    intro a
    rcases rem with _ | _ | r
    · simp [wcTrace, countLogins]
    · simp [wcTrace, countLogins, List.countP_cons]
    · rw [wcTrace]
      have hx := ih (r + 1) (by omega) (a + 1)
      unfold countLogins at hx ⊢
      rw [List.countP_cons, List.countP_cons, hx]
      simp

theorem countLogouts_wcTrace : ∀ rem a, countLogouts (wcTrace a rem) = rem - 1 := by
  intro rem
  induction rem using Nat.strong_induction_on with
  | _ rem ih =>
    intro a
    rcases rem with _ | _ | r
    · simp [wcTrace, countLogouts]
    · simp [wcTrace, countLogouts, List.countP_cons]
    · rw [wcTrace]
      have hx := ih (r + 1) (by omega) (a + 1)
      unfold countLogouts at hx ⊢
      rw [List.countP_cons, List.countP_cons, hx]
      simp

/-- C7: if every login attempt fails with a `LoginError` of code `WrongClient`
(and the logouts between attempts succeed), `robustLogin` performs exactly
`maxAttempts` login attempts interleaved with exactly `maxAttempts - 1`
logouts — the call trace is `login 0, logout 0, login 1, …,
login (maxAttempts-1)` — and its promise rejects with the last wrong-client
error.  And: a failure with any other error type or code terminates the loop
immediately with that error. -/
theorem robustLogin_wrongClient_retry_bound :
    (∀ (lo : Nat → Except Err LoginResponse) (lg : Nat → Except Err Unit)
        (m : Nat) (t : TaskTree) (errs : Nat → Err), 1 ≤ m →
      (∀ i, i < m → attemptFails (lo i) (errs i)) →
      (∀ i, i < m → isWrongClient (errs i) = true) →
      (∀ j, j + 1 < m → lg j = .ok ()) →
      (robustLogin lo lg m t).1.result = .error (errs (m - 1)) ∧
      (robustLogin lo lg m t).1.trace = wcTrace 0 m ∧
      countLogins (robustLogin lo lg m t).1.trace = m ∧
      countLogouts (robustLogin lo lg m t).1.trace = m - 1) ∧
    (∀ (lo : Nat → Except Err LoginResponse) (lg : Nat → Except Err Unit)
        (m : Nat) (t : TaskTree) (errs : Nat → Err) (k : Nat) (e : Err), k < m →
      (∀ i, i < k → attemptFails (lo i) (errs i)) →
      (∀ i, i < k → isWrongClient (errs i) = true) →
      (∀ j, j + 1 ≤ k → lg j = .ok ()) →
      attemptFails (lo k) e → isWrongClient e = false →
      (robustLogin lo lg m t).1.result = .error e ∧
      (robustLogin lo lg m t).1.trace = wcTrace 0 (k + 1) ∧
      countLogins (robustLogin lo lg m t).1.trace = k + 1 ∧
      countLogouts (robustLogin lo lg m t).1.trace = k) := by
  constructor
  · intro lo lg m t errs hm hfail hwc hlg
    have h := robustLoginAux_allWrong lo lg m errs hfail hwc hlg 0 [] (by omega)
    have htrace : (robustLogin lo lg m t).1.trace = wcTrace 0 m := by
      show (robustLoginAux lo lg m 0 []).trace = wcTrace 0 m
      rw [h]
      simp
    refine ⟨?_, htrace, ?_, ?_⟩
    · show (taskFunction t (fun tt => ((robustLoginAux lo lg m 0 []).result, tt))
        true false).1 = .error (errs (m - 1))
      rw [taskFunction_result_id, h]
    · rw [htrace]
      exact countLogins_wcTrace m 0
    · rw [htrace]
      rw [countLogouts_wcTrace m 0]
  · intro lo lg m t errs k e hk hfail hwc hlg hfk hnw
    have h := robustLoginAux_stopEarly lo lg m errs k e hk hfail hwc hlg hfk hnw 0 []
      (by omega)
    have htrace : (robustLogin lo lg m t).1.trace = wcTrace 0 (k + 1) := by
      show (robustLoginAux lo lg m 0 []).trace = wcTrace 0 (k + 1)
      rw [h]
      simp
    refine ⟨?_, htrace, ?_, ?_⟩
    · show (taskFunction t (fun tt => ((robustLoginAux lo lg m 0 []).result, tt))
        true false).1 = .error e
      rw [taskFunction_result_id, h]
    · rw [htrace]
      exact countLogins_wcTrace (k + 1) 0
    · rw [htrace]
      rw [countLogouts_wcTrace (k + 1) 0]
      omega

/-- Witness for C7: `maxAttempts = 3`, every attempt rejecting with the
wrong-client error and every logout succeeding — 3 logins, 2 logouts, and the
promise rejects with the wrong-client error. -/
theorem robustLogin_wrongClient_retry_witness :
    (robustLogin loAllWrong lgOk 3 (leaf {})).1.result = .error wcErr ∧
    countLogins (robustLogin loAllWrong lgOk 3 (leaf {})).1.trace = 3 ∧
    countLogouts (robustLogin loAllWrong lgOk 3 (leaf {})).1.trace = 2 := by
  have h := robustLogin_wrongClient_retry_bound.1 loAllWrong lgOk 3 (leaf {})
    (fun _ => wcErr) (by omega) (fun i _ => Or.inl rfl)
    (fun i _ => by show isWrongClient wcErr = true; decide) (fun j _ => rfl)
  exact ⟨h.1, h.2.2.1, h.2.2.2⟩

/-! ## C8: the Paged-Data Fetcher -/

/-- The `getReceiptData` merge over per-page responses indexed by page number:
the data is the concatenation of the successful pages' records in response
order, and the failed pages are collected separately, also in order. -/
theorem getReceiptData_map {R : Type} (res : Nat → Except Err (List R)) :
    ∀ ps : List Nat,
      getReceiptData (ps.map fun p => PageResponse.mk p (res p)) =
        (ps.flatMap (fun p => match res p with | .ok v => v | .error _ => []),
          ps.filter (fun p => match res p with | .error _ => true | .ok _ => false)) := by
  intro ps
  induction ps with
  | nil => simp [getReceiptData]
  | cons p rest ih =>
    simp only [List.map_cons, getReceiptData, ih]
    rcases hres : res p with e | v
    · simp [hres, List.flatMap_cons, List.filter_cons]
    · simp [hres, List.flatMap_cons, List.filter_cons]

/-- `[1, 2, …, n]` splits as page 1 followed by pages `2..n`. -/
theorem range'_one_split (n : Nat) (hn : 1 ≤ n) :
    List.range' 1 n = 1 :: List.range' 2 (n - 1) := by
  rcases n with _ | k
  · omega
  · rw [List.range'_succ]
    simp

/-- C8: called with an empty pages list, the Paged-Data Fetcher fetches page 1
alone, reads `numPages` from that response, and then fetches exactly pages
`2..numPages` through the Task-Mapper: the response list carries pages
`1..numPages` in ascending order, each with its own fetch outcome (responses
are indexed by page, not by resolution order).  The `getReceiptData` merge of
those responses concatenates the successful pages' records in ascending page
order and reports exactly the failed page numbers. -/
theorem getPagedData_page_discovery_merge {R : Type}
    (fetch : Nat → Except Err (PageData (List R))) (n : Nat) (v1 : List R)
    (hf : fetch 1 = .ok ⟨n, v1⟩) (hn : 1 ≤ n) :
    getPagedData fetch [] =
      .ok ((List.range' 1 n).map fun p =>
        PageResponse.mk p ((fetch p).map PageData.value)) ∧
    getReceiptData ((List.range' 1 n).map fun p =>
        PageResponse.mk p ((fetch p).map PageData.value)) =
      ((List.range' 1 n).flatMap (fun p =>
          match (fetch p).map PageData.value with | .ok v => v | .error _ => []),
        (List.range' 1 n).filter (fun p =>
          match (fetch p).map PageData.value with | .error _ => true | .ok _ => false)) := by
  constructor
  · rw [getPagedData, range'_one_split n hn]
    simp only [List.isEmpty_nil, if_true, hf, parallelTaskMap, List.map_cons,
      List.map_map]
    simp [Function.comp_def, Except.map, hf]
  · exact getReceiptData_map (fun p => (fetch p).map PageData.value) (List.range' 1 n)

/-- Witness for C8 at `fetch0` (3 pages, page 2 failing): the fetcher covers
pages 1..3 and the merge returns the records of pages 1 and 3 in page order
with page 2 reported failed. -/
theorem getPagedData_witness :
    getPagedData fetch0 [] =
      .ok ((List.range' 1 3).map fun p =>
        PageResponse.mk p ((fetch0 p).map PageData.value)) ∧
    getReceiptData ((List.range' 1 3).map fun p =>
        PageResponse.mk p ((fetch0 p).map PageData.value)) = ([10, 30, 31], [2]) := by
  have h := getPagedData_page_discovery_merge fetch0 3 [10] rfl (by omega)
  refine ⟨h.1, ?_⟩
  rw [h.2]
  rfl

/-! ## C10: a failing post-login check resolves `login` and is re-thrown by
`robustLogin` -/

theorem addStep_fields (stat : String) (inc : Rat) (t : TaskTree) :
    (addStep stat inc t).fields =
      { t.fields with
        progress := (derived t).progress + inc,
        status := stat } := by
  cases t
  rfl

/-- C10: if every step of `login` up to the post-login check succeeds and the
check itself throws `ce`, then `login`'s promise still resolves — with
`checkLoginError = ce` in the resolved value — while the error is recorded on
the task via `setError` (state ERROR, error `ce`, rendered string), and the
login tab is closed exactly when `keepTabOpen` and `closeOnErrors` both hold.
It is `robustLogin` that turns a defined `checkLoginError` back into a thrown
error: with an attempt resolving to such a response (and the error not being
the recoverable wrong-client one), `robustLogin` rejects with it. -/
theorem login_checkError_resolves :
    (∀ (env : LoginEnv) (keep close : Bool) (t : TaskTree) (tid : Nat) (ce : Err),
      env.loginPage = .ok () → env.captcha = .ok () → env.createTabPost = .ok tid →
      env.tabLoad = .ok () → env.postAjax = .ok () → env.check = .error ce →
      (login env keep close t).1 =
        .ok { tabId := if keep then some tid else none, checkLoginError := some ce } ∧
      (login env keep close t).2.1.fields.error = some ce ∧
      (login env keep close t).2.1.fields.state = some TaskState.error ∧
      (login env keep close t).2.1.fields.errorString = errorToString ce ∧
      (login env keep close t).2.2 = (if keep && close then [tid] else [])) ∧
    (∀ (lo : Nat → Except Err LoginResponse) (lg : Nat → Except Err Unit)
        (m : Nat) (t : TaskTree) (resp : LoginResponse) (ce : Err),
      lo 0 = .ok resp → resp.checkLoginError = some ce → isWrongClient ce = false →
      (robustLogin lo lg m t).1.result = .error ce) := by
  constructor
  · intro env keep close t tid ce h1 h2 h3 h4 h5 h6
    cases keep <;> cases close <;>
      refine ⟨?_, ?_, ?_, ?_, ?_⟩ <;>
        simp [login, loginFunc, taskFunction, h1, h2, h3, h4, h5, h6,
          markAsComplete_fields, setErrorAction_fields, addStep_fields]
  · intro lo lg m t resp ce hok hchk hnw
    have h := robustLoginAux_step_fail lo lg m 0 [] ce (Or.inr ⟨resp, hok, hchk⟩)
      (Or.inl hnw)
    show (taskFunction t (fun tt => ((robustLoginAux lo lg m 0 []).result, tt))
      true false).1 = .error ce
    rw [taskFunction_result_id, h]

/-- Witness for C10 at `env0` (check fails with `chkErr`, tab 77 open,
`keepTabOpen` and `closeOnErrors` both true): `login` resolves with the check
error in `checkLoginError` and the tab is closed; `robustLogin` over an
attempt resolving to that response rejects with the check error. -/
theorem login_checkError_witness :
    (login env0 true true (leaf {})).1 =
      .ok { tabId := some 77, checkLoginError := some chkErr } ∧
    (login env0 true true (leaf {})).2.2 = [77] ∧
    (robustLogin (fun _ => .ok { tabId := some 77, checkLoginError := some chkErr })
      (fun _ => .ok ()) 1 (leaf {})).1.result = .error chkErr := by
  have h := login_checkError_resolves.1 env0 true true (leaf {}) 77 chkErr
    rfl rfl rfl rfl rfl rfl
  have h2 := login_checkError_resolves.2
    (fun _ => .ok { tabId := some 77, checkLoginError := some chkErr })
    (fun _ => .ok ()) 1 (leaf {})
    { tabId := some 77, checkLoginError := some chkErr } chkErr rfl rfl
    (by show isWrongClient chkErr = false; decide)
  exact ⟨by simpa using h.1, by simpa using h.2.2.2.2, h2⟩

